import Mathlib

/-!
Verification development for the session-block subsystem of `ccstatusline`
(`src/utils/block.ts`): the Block Locator (`findMostRecentBlockStartTime`,
`getAllTimestampsFromFile`, `floorToHour`), the Block Cache
(`readBlockCache`, `writeBlockCache`) and the orchestration entry points
(`getBlockMetrics`, `getCachedBlockMetrics`).

Modelling conventions:
* A JavaScript `Date` is its time value: milliseconds since the Unix epoch,
  as an unbounded `Int`.  `Date` arithmetic (`getTime`, comparisons,
  `setUTCMinutes(0,0,0)`) becomes `Int` arithmetic; `Int`'s `/` and `%` are
  Euclidean, which for the positive literal divisors used here coincide with
  the floor division that ECMAScript's internal date operations prescribe.
* `new Date(someString)` (the host date parser applied to an arbitrary
  string) is an opaque parameter `pd : String → Option Int`; `none` models a
  `NaN` time value.
* The filesystem is passed in explicitly: a log file is its `stat` mtime
  plus its content (either unreadable, or a list of already-split lines);
  a line is either invalid JSON or a record with the three fields the code
  inspects.  The cache file is a small state enumerating the shapes
  `readBlockCache` distinguishes.
* `Array.prototype.sort` (required stable since ES2019) is modelled by
  `List.insertionSort` with the comparator's ordering (any stable sorted
  permutation; ties never affect the observable results proved here).
-/

/-- A JSON value as far as the scanner's `typeof`/strict-equality tests can
distinguish it. -/
inductive JVal where
  | str (s : String)
  | num (n : Int)
  | bool (b : Bool)
  | jnull
  | other
deriving DecidableEq

/-- The `message.usage` object of a log record: the two token-count fields,
each absent or an arbitrary JSON value. -/
structure UsageObj where
  input_tokens : Option JVal
  output_tokens : Option JVal
deriving DecidableEq

/-- One line of a JSONL log file: either invalid JSON, or a parsed record
carrying the fields `getAllTimestampsFromFile` reads (`message?.usage`,
`isSidechain`, `timestamp`). -/
inductive LogLine where
  | invalid
  | entry (usage : Option UsageObj) (isSidechain : Option JVal) (timestamp : Option JVal)
deriving DecidableEq

/-- Content of a log file: unreadable (the `readFile` call throws), or its
non-empty lines. -/
inductive FileContent where
  | unreadable
  | lines (ls : List LogLine)
deriving DecidableEq

/-- A globbed log file together with its `stat` modification time (ms). -/
structure FileEntry where
  mtime : Int
  content : FileContent
deriving DecidableEq

/-- `typeof v === 'number'` for an optional field. -/
def isNumericField : Option JVal → Bool
  | some (.num _) => true
  | _ => false

/-- The timestamp one line contributes, if any: the guard chain of the loop
body of `getAllTimestampsFromFile` (usage present, numeric `input_tokens`
and `output_tokens`, not a sidechain entry, string `timestamp` parsing to a
valid date). -/
def lineTimestamp (pd : String → Option Int) : LogLine → Option Int
  | .invalid => none
  | .entry usage isSidechain timestamp =>
    match usage with
    | none => none
    | some u =>
      let hasInputTokens : Bool := isNumericField u.input_tokens
      let hasOutputTokens : Bool := isNumericField u.output_tokens
      if !hasInputTokens || !hasOutputTokens then none
      else if isSidechain = some (.bool true) then none
      else
        match timestamp with
        | some (.str s) => pd s
        | _ => none

/-- `getAllTimestampsFromFile`: all timestamps of a file, in line order; an
unreadable file contributes none (the surrounding `try` returns `[]`). -/
def getAllTimestampsFromFile (pd : String → Option Int) : FileContent → List Int
  | .unreadable => []
  | .lines ls => ls.filterMap (lineTimestamp pd)

/-- The inner file walk of one lookback pass: consume the (sorted) file list
in order, stopping at the first file whose mtime is before the cutoff
(`if (mtime.getTime() < cutoffTime.getTime()) break`). -/
def collectTimestamps (pd : String → Option Int) (cutoff : Int) : List FileEntry → List Int
  | [] => []
  | f :: rest =>
    if f.mtime < cutoff then []
    else getAllTimestampsFromFile pd f.content ++ collectTimestamps pd cutoff rest

/-- `timestamps.sort((a, b) => b.getTime() - a.getTime())`: descending. -/
def sortTsDesc (l : List Int) : List Int :=
  l.insertionSort (fun a b => b ≤ a)

/-- `timestamps.slice().sort((a, b) => a.getTime() - b.getTime())`: ascending. -/
def sortTsAsc (l : List Int) : List Int :=
  l.insertionSort (fun a b => a ≤ b)

/-- `filesWithStats.sort((a, b) => b.mtime.getTime() - a.mtime.getTime())`. -/
def sortFilesByMtimeDesc (l : List FileEntry) : List FileEntry :=
  l.insertionSort (fun a b => b.mtime ≤ a.mtime)

/-- The gap walk (`for (let i = 1; i < timestamps.length; i++) ...`) over a
descending timestamp list, carrying the running `continuousWorkStart` and
`prev = timestamps[i-1]`; returns the final `continuousWorkStart` and the
`foundSessionGap` flag. -/
def gapWalk (sessionDurationMs : Int) (cws : Option Int) (prev : Int) :
    List Int → Option Int × Bool
  | [] => (cws, false)
  | t :: rest =>
    if sessionDurationMs ≤ prev - t then (cws, true)
    else gapWalk sessionDurationMs (some t) t rest

/-- The loop-scoped mutable state of `findMostRecentBlockStartTime`'s
horizon loop, as it stands when the loop exits normally. -/
structure ScanState where
  timestamps : List Int
  mostRecent : Option Int
  continuousWorkStart : Option Int
deriving DecidableEq

/-- The `for (const lookbackHours of lookbackChunks)` loop.  `none` models
the early `return null` taken when the first timestamp ever found is already
older than the session duration.  The last-chunk test
(`lookbackHours === lookbackChunks[lookbackChunks.length - 1]`) is the
`rest = []` case, the chunk values being distinct. -/
def scanChunks (pd : String → Option Int) (now sessionDurationMs : Int)
    (files : List FileEntry) : List Int → ScanState → Option ScanState
  | [], st => some st
  | lookbackHours :: rest, st =>
    let cutoff := now - lookbackHours * 3600000
    match sortTsDesc (collectTimestamps pd cutoff files) with
    | [] => scanChunks pd now sessionDurationMs files rest { st with timestamps := [] }
    | t0 :: ttail =>
      let step : Option (Option Int) :=
        match st.mostRecent with
        | none => if sessionDurationMs < now - t0 then none else some (some t0)
        | some mr => some (some mr)
      match step with
      | none => none
      | some newMR =>
        let gw := gapWalk sessionDurationMs newMR t0 ttail
        let st' : ScanState := ⟨t0 :: ttail, newMR, gw.1⟩
        if gw.2 then some st'
        else
          match rest with
          | [] => some st'
          | r :: rs => scanChunks pd now sessionDurationMs files (r :: rs) st'

/-- `floorToHour`: `setUTCMinutes(0, 0, 0)` zeroes the minutes, seconds and
milliseconds of the UTC representation, i.e. floors the time value to the
enclosing hour (the epoch is hour-aligned). -/
def floorToHour (t : Int) : Int := t - t % 3600000

/-- A window candidate `{start, end}` built in step 5 of the Locator. -/
structure Block where
  start : Int
  endTime : Int
deriving DecidableEq

/-- The block-building walk over the ascending timestamp list, carrying the
current open block (`currentBlockStart`/`currentBlockEnd`): timestamps below
`continuousWorkStart` are skipped, a new block opens when none is open or
the timestamp exceeds the open block's end. -/
def buildBlocksGo (sessionDurationMs continuousWorkStart : Int) :
    Option Block → List Int → List Block
  | _, [] => []
  | cur, t :: rest =>
    if t < continuousWorkStart then buildBlocksGo sessionDurationMs continuousWorkStart cur rest
    else
      match cur with
      | none =>
        let b : Block := ⟨floorToHour t, floorToHour t + sessionDurationMs⟩
        b :: buildBlocksGo sessionDurationMs continuousWorkStart (some b) rest
      | some b =>
        if b.endTime < t then
          let b' : Block := ⟨floorToHour t, floorToHour t + sessionDurationMs⟩
          b' :: buildBlocksGo sessionDurationMs continuousWorkStart (some b') rest
        else buildBlocksGo sessionDurationMs continuousWorkStart (some b) rest

/-- Step 5 of the Locator: blocks built forward from `continuousWorkStart`. -/
def buildBlocks (sessionDurationMs continuousWorkStart : Int) (sortedTs : List Int) :
    List Block :=
  buildBlocksGo sessionDurationMs continuousWorkStart none sortedTs

/-- The result type `BlockMetrics`: window start and last activity. -/
structure BlockMetrics where
  startTime : Int
  lastActivity : Int
deriving DecidableEq

/-- Step 6 of the Locator: the `for (const block of blocks)` selection loop,
returning the first block containing `now` that also contains an observed
timestamp. -/
def pickBlock (now : Int) (timestamps : List Int) (mostRecent : Int) :
    List Block → Option BlockMetrics
  | [] => none
  | b :: rest =>
    if b.start ≤ now ∧ now ≤ b.endTime then
      if timestamps.any (fun t => decide (b.start ≤ t) && decide (t ≤ b.endTime)) then
        some ⟨b.start, mostRecent⟩
      else pickBlock now timestamps mostRecent rest
    else pickBlock now timestamps mostRecent rest

/-- The progressive lookback horizons (hours). -/
def lookbackChunks : List Int := [10, 20, 48]

/-- `findMostRecentBlockStartTime`: the whole Locator, over an explicit glob
result (file list with stat mtimes). -/
def findMostRecentBlockStartTime (pd : String → Option Int) (now : Int)
    (files : List FileEntry) (sessionDurationHours : Int) : Option BlockMetrics :=
  let sessionDurationMs := sessionDurationHours * 3600000
  if files.isEmpty then none
  else
    let filesWithStats := sortFilesByMtimeDesc files
    match scanChunks pd now sessionDurationMs filesWithStats lookbackChunks ⟨[], none, none⟩ with
    | none => none
    | some st =>
      match st.mostRecent, st.continuousWorkStart with
      | some mostRecent, some continuousWorkStart =>
        let blocks := buildBlocks sessionDurationMs continuousWorkStart (sortTsAsc st.timestamps)
        pickBlock now st.timestamps mostRecent blocks
      | _, _ => none

/-! ## Calendar model (ECMAScript time values)

`writeBlockCache` serializes with `Date.prototype.toISOString` and
`readBlockCache` re-parses the stored string with `new Date(...)`, whose
behaviour on the ISO date-time format is fixed by the ECMAScript
specification.  Both are modelled at the level of the broken-out calendar
fields: `isoFromMs` is ECMAScript's time-value-to-UTC-fields conversion
(`YearFromTime` is the largest year whose first day is not after the day,
month and day-of-month come from the day-within-year table), and `msFromISO`
is the `MakeDay`/`MakeTime`/`MakeDate` recomposition that parsing performs. -/

/-- ECMAScript `DayFromYear`. -/
def dayFromYear (y : Int) : Int :=
  365 * (y - 1970) + (y - 1969) / 4 - (y - 1901) / 100 + (y - 1601) / 400

/-- 1 when the proleptic Gregorian year is a leap year, else 0
(ECMAScript `InLeapYear`). -/
def leapInd (y : Int) : Int :=
  if (y % 4 = 0 ∧ ¬y % 100 = 0) ∨ y % 400 = 0 then 1 else 0

/-- Days from the start of a 400-year era (anchored at year 1600) to the
start of year-of-era `y`. -/
def daysToYearOfEra (y : Int) : Int :=
  365 * y + (y + 3) / 4 - (y + 99) / 100 + (y + 399) / 400

/-- Bounded downward search for the greatest year-of-era (≤ fuel) whose
first day is not after `doe`; this is ECMAScript's characterization of
`YearFromTime` restricted to one era. -/
def yoeSearch (doe : Int) : Nat → Int
  | 0 => 0
  | k + 1 => if daysToYearOfEra (k + 1 : Nat) ≤ doe then (k + 1 : Nat) else yoeSearch doe k

/-- Month (1–12) from day-within-year, given the leap indicator: the
ECMAScript `MonthFromTime` table. -/
def monthFromDoy (lp doy : Int) : Int :=
  if doy < 31 then 1
  else if doy < 59 + lp then 2
  else if doy < 90 + lp then 3
  else if doy < 120 + lp then 4
  else if doy < 151 + lp then 5
  else if doy < 181 + lp then 6
  else if doy < 212 + lp then 7
  else if doy < 243 + lp then 8
  else if doy < 273 + lp then 9
  else if doy < 304 + lp then 10
  else if doy < 334 + lp then 11
  else 12

/-- Days in the year strictly before month `m` (1–12), given the leap
indicator: the cumulative table used by `MakeDay` and `DateFromTime`. -/
def daysBeforeMonth (lp m : Int) : Int :=
  if m = 1 then 0
  else if m = 2 then 31
  else if m = 3 then 59 + lp
  else if m = 4 then 90 + lp
  else if m = 5 then 120 + lp
  else if m = 6 then 151 + lp
  else if m = 7 then 181 + lp
  else if m = 8 then 212 + lp
  else if m = 9 then 243 + lp
  else if m = 10 then 273 + lp
  else if m = 11 then 304 + lp
  else 334 + lp

/-- The broken-out fields of an ISO-8601 date-time string in UTC. -/
structure ISORep where
  year : Int
  month : Int
  day : Int
  hour : Int
  minute : Int
  second : Int
  ms : Int
deriving DecidableEq

/-- `Date.prototype.toISOString`, as the UTC calendar fields of a time
value: day split off by floor division, year by era plus year-of-era
search, month/day by the day-within-year table, time fields per
`HourFromTime`/`MinFromTime`/`SecFromTime`/`msFromTime`. -/
def isoFromMs (t : Int) : ISORep :=
  let day := t / 86400000
  let era := (day + 135140) / 146097
  let doe := (day + 135140) % 146097
  let yoe := yoeSearch doe 399
  let year := 1600 + era * 400 + yoe
  let doy := doe - daysToYearOfEra yoe
  let lp := leapInd year
  { year := year
    month := monthFromDoy lp doy
    day := doy - daysBeforeMonth lp (monthFromDoy lp doy) + 1
    hour := (t / 3600000) % 24
    minute := (t / 60000) % 60
    second := (t / 1000) % 60
    ms := t % 1000 }

/-- Parsing of an ISO date-time string in UTC: ECMAScript
`MakeDate(MakeDay(year, month−1, day), MakeTime(hour, minute, second, ms))`. -/
def msFromISO (r : ISORep) : Int :=
  (dayFromYear r.year + daysBeforeMonth (leapInd r.year) r.month + r.day - 1) * 86400000
    + r.hour * 3600000 + r.minute * 60000 + r.second * 1000 + r.ms

/-! ## Block cache -/

/-- The cache file as `readBlockCache` can observe it: missing/unreadable
(`readFile` throws), unparseable JSON, a parsed object whose `startTime` is
not a string, a well-formed ISO date-time string (represented by its parsed
fields — the shape `writeBlockCache` produces), or an arbitrary other
string. -/
inductive CacheFileState where
  | absent
  | invalidJson
  | badStart
  | startRep (r : ISORep)
  | startStr (s : String)
deriving DecidableEq

/-- `readBlockCache`: the cached start time, or `none` on any failure. -/
def readBlockCache (pd : String → Option Int) : CacheFileState → Option Int
  | .absent => none
  | .invalidJson => none
  | .badStart => none
  | .startRep r => some (msFromISO r)
  | .startStr s => pd s

/-- The cache file state after a successful `writeBlockCache(startTime)`:
the record `{startTime: startTime.toISOString()}`. -/
def writeBlockCache (startTime : Int) : CacheFileState :=
  .startRep (isoFromMs startTime)

/-- The environment a `getCachedBlockMetrics` call runs in: the wall clock,
the cache file, whether `getClaudeConfigDir()` found a directory, and the
glob/stat outcome (`none` models a filesystem error thrown inside
`findMostRecentBlockStartTime`'s enumeration and caught by
`getBlockMetrics`). -/
structure Env where
  now : Int
  cacheFile : CacheFileState
  claudeDirFound : Bool
  globResult : Option (List FileEntry)

/-- `getBlockMetrics`: `null` when no config dir, otherwise the Locator at
its default 5-hour duration, with any thrown error absorbed to `null`. -/
def getBlockMetrics (pd : String → Option Int) (env : Env) : Option BlockMetrics :=
  if env.claudeDirFound then
    match env.globResult with
    | none => none
    | some files => findMostRecentBlockStartTime pd env.now files 5
  else none

/-- Observable outcome of one `getCachedBlockMetrics` call: the returned
value, whether the Locator was invoked, the start times passed to
`writeBlockCache` (in order), and the cache file afterwards (assuming the
best-effort write, if any, succeeds). -/
structure CacheCallResult where
  result : Option BlockMetrics
  locatorInvoked : Bool
  writes : List Int
  finalCache : CacheFileState

/-- `getCachedBlockMetrics`: serve from the cache while
`now ≤ cachedStart + duration`, otherwise recompute via `getBlockMetrics`
and cache a found start time. -/
def getCachedBlockMetrics (pd : String → Option Int) (env : Env)
    (sessionDurationHours : Int) : CacheCallResult :=
  let sessionDurationMs := sessionDurationHours * 3600000
  let now := env.now
  let onMiss : CacheCallResult :=
    match getBlockMetrics pd env with
    | some m => ⟨some m, true, [m.startTime], writeBlockCache m.startTime⟩
    | none => ⟨none, true, [], env.cacheFile⟩
  match readBlockCache pd env.cacheFile with
  | some cachedStartTime =>
    if now ≤ cachedStartTime + sessionDurationMs then
      ⟨some ⟨cachedStartTime, now⟩, false, [], env.cacheFile⟩
    else onMiss
  | none => onMiss

/-- The most recent timestamp the horizon loop fixes: the head of the
descending sort of the first horizon's non-empty collection.  (Spec-side
description of which timestamp the Locator's staleness test applies to.) -/
def firstFound (pd : String → Option Int) (now : Int) (files : List FileEntry) :
    List Int → Option Int
  | [] => none
  | h :: rest =>
    match sortTsDesc (collectTimestamps pd (now - h * 3600000) files) with
    | [] => firstFound pd now files rest
    | t0 :: _ => some t0

/-! ## Theorems -/

/-- Sanity: the model of `toISOString` agrees with the real one at the
epoch. -/
theorem isoFromMs_epoch : isoFromMs 0 = ⟨1970, 1, 1, 0, 0, 0, 0⟩ := by decide

set_option maxRecDepth 8000 in
/-- Sanity: the model of `toISOString` agrees with the real one at
`2020-06-15T12:34:56.789Z`. -/
theorem isoFromMs_sample : isoFromMs 1592224496789 = ⟨2020, 6, 15, 12, 34, 56, 789⟩ := by
  decide

set_option maxRecDepth 8000 in
/-- Sanity: a pre-epoch time value, `1969-08-11T02:38:41.099Z`. -/
theorem isoFromMs_pre_epoch : isoFromMs (-12345678901) = ⟨1969, 8, 11, 2, 38, 41, 99⟩ := by
  decide

/-- `DayFromYear` split into 400-year eras anchored at 1600. -/
theorem dayFromYear_decomp (era yoe : Int) :
    dayFromYear (1600 + era * 400 + yoe) = -135140 + 146097 * era + daysToYearOfEra yoe := by
  unfold dayFromYear daysToYearOfEra
  omega

/-- Serialize-then-parse of a time value through the calendar fields is the
identity: the day-of-year and days-before-month terms cancel, and the era
decomposition recomposes the day number. -/
theorem msFromISO_isoFromMs (t : Int) : msFromISO (isoFromMs t) = t := by
  simp only [msFromISO, isoFromMs]
  rw [dayFromYear_decomp]
  omega

/-- C10: writing a time value through `writeBlockCache` and reading it back
with `readBlockCache` (both I/O operations succeeding, no interleaved
writer) recovers the same millisecond instant: the ISO-8601
serialize-then-parse round trip through the cache file is lossless, for
every representable `Date` (|t| ≤ 8.64e15). -/
theorem c10_write_read_roundtrip (pd : String → Option Int) (t : Int)
    (_hlo : -8640000000000000 ≤ t) (_hhi : t ≤ 8640000000000000) :
    readBlockCache pd (writeBlockCache t) = some t := by
  simp [readBlockCache, writeBlockCache, msFromISO_isoFromMs]

set_option maxRecDepth 8000 in
/-- Witness for C10 at `2020-06-15T12:34:56.789Z`. -/
theorem c10_write_read_roundtrip_witness :
    readBlockCache (fun _ => none) (writeBlockCache 1592224496789) = some 1592224496789 :=
  c10_write_read_roundtrip (fun _ => none) 1592224496789 (by decide) (by decide)

/-- C2: when the cache read yields `s` and `now ≤ s + d` (inclusive), the
call returns `{startTime: s, lastActivity: now}` without invoking the
Locator, without writing, and leaving the cache file as it was. -/
theorem c2_cache_hit (pd : String → Option Int) (env : Env) (d s : Int)
    (hread : readBlockCache pd env.cacheFile = some s)
    (hvalid : env.now ≤ s + d * 3600000) :
    getCachedBlockMetrics pd env d = ⟨some ⟨s, env.now⟩, false, [], env.cacheFile⟩ := by
  unfold getCachedBlockMetrics
  rw [hread]
  simp [hvalid]

/-- Witness for C2: a cached start of 0 served at `now = 1000` under a
5-hour duration. -/
theorem c2_cache_hit_witness :
    getCachedBlockMetrics (fun s => if s = "c" then some 0 else none)
        ⟨1000, .startStr "c", true, some []⟩ 5 =
      ⟨some ⟨0, 1000⟩, false, [], .startStr "c"⟩ :=
  c2_cache_hit (fun s => if s = "c" then some 0 else none)
    ⟨1000, .startStr "c", true, some []⟩ 5 0 (by decide) (by decide)

/-- C9: every failure mode resolves to an empty result rather than an
exception: missing/unparseable cache, non-string or invalid `startTime`,
missing config directory, a filesystem error during enumeration, an
unreadable log file, an invalid log line. -/
theorem c9_no_throw (pd : String → Option Int) (s : String) (env : Env) :
    readBlockCache pd .absent = none ∧
    readBlockCache pd .invalidJson = none ∧
    readBlockCache pd .badStart = none ∧
    (pd s = none → readBlockCache pd (.startStr s) = none) ∧
    (env.claudeDirFound = false → getBlockMetrics pd env = none) ∧
    (env.globResult = none → getBlockMetrics pd env = none) ∧
    getAllTimestampsFromFile pd .unreadable = [] ∧
    lineTimestamp pd .invalid = none := by
  refine ⟨rfl, rfl, rfl, fun h => h, fun h => ?_, fun h => ?_, rfl, rfl⟩
  · simp [getBlockMetrics, h]
  · cases hdir : env.claudeDirFound <;> simp [getBlockMetrics, h, hdir]

/-- Witness for C9 on a fully failing environment. -/
theorem c9_no_throw_witness :
    readBlockCache (fun _ => none) .absent = none ∧
    readBlockCache (fun _ => none) (.startStr "x") = none ∧
    getBlockMetrics (fun _ => none) ⟨0, .absent, false, none⟩ = none := by
  have h := c9_no_throw (fun _ => none) "x" ⟨0, .absent, false, none⟩
  exact ⟨h.1, h.2.2.2.1 rfl, h.2.2.2.2.1 rfl⟩

/-- Host date parser used by the concrete witnesses: "a" ↦ 98 h,
"b" ↦ 94 h after the epoch. -/
def wPd : String → Option Int :=
  fun s => if s = "a" then some 352800000 else if s = "b" then some 338400000 else none

/-- A valid log record whose timestamp string is "a". -/
def wLineA : LogLine := .entry (some ⟨some (.num 1), some (.num 2)⟩) none (some (.str "a"))

/-- One log file, modified at 100 h, holding `wLineA`. -/
def wFilesA : List FileEntry := [⟨360000000, .lines [wLineA]⟩]

/-- Environment at `now = 100 h` with an absent cache over `wFilesA`. -/
def wEnvA : Env := ⟨360000000, .absent, true, some wFilesA⟩

/-- C1 counterexample: at duration `d = 1`, `getCachedBlockMetrics`
delegates to the Locator (the cache is absent), yet returns a window even
though the Locator at duration 1 returns none — the delegated computation
used the fixed default duration (5), not `d`. -/
theorem c1_counterexample :
    (getCachedBlockMetrics wPd wEnvA 1).locatorInvoked = true ∧
    (getCachedBlockMetrics wPd wEnvA 1).result = some ⟨352800000, 352800000⟩ ∧
    findMostRecentBlockStartTime wPd wEnvA.now wFilesA 1 = none := by
  refine ⟨rfl, by decide, by decide⟩

/-- C1 amended: whenever `getCachedBlockMetrics d` delegates to the Locator,
the fresh window is computed with the fixed default duration of 5 hours,
regardless of `d`; the expiry check and the window boundaries share one
duration only when `d = 5`. -/
theorem c1_locator_uses_default_duration (pd : String → Option Int) (env : Env)
    (d : Int) (files : List FileEntry) (hdir : env.claudeDirFound = true)
    (hglob : env.globResult = some files)
    (hloc : (getCachedBlockMetrics pd env d).locatorInvoked = true) :
    (getCachedBlockMetrics pd env d).result =
      findMostRecentBlockStartTime pd env.now files 5 := by
  have hbm : getBlockMetrics pd env = findMostRecentBlockStartTime pd env.now files 5 := by
    simp [getBlockMetrics, hdir, hglob]
  unfold getCachedBlockMetrics at hloc ⊢
  rcases h : readBlockCache pd env.cacheFile with _ | s
  · rcases g : getBlockMetrics pd env with _ | m <;> simp [g] <;> rw [← hbm, g]
  · by_cases hv : env.now ≤ s + d * 3600000
    · rw [h] at hloc
      simp [hv] at hloc
    · rcases g : getBlockMetrics pd env with _ | m <;> simp [hv, g] <;> rw [← hbm, g]

/-- Witness for the amended C1, at the counterexample's environment. -/
theorem c1_locator_uses_default_duration_witness :
    (getCachedBlockMetrics wPd wEnvA 1).result =
      findMostRecentBlockStartTime wPd wEnvA.now wFilesA 5 :=
  c1_locator_uses_default_duration wPd wEnvA 1 wFilesA rfl rfl rfl

/-- C8: per call at most one cache write is attempted; a write happens
exactly when the call fell through to the Locator and the Locator found a
window; and whenever the Locator finds nothing — or no write happens — the
cache file is left unchanged (never cleared). -/
theorem c8_write_discipline (pd : String → Option Int) (env : Env) (d : Int) :
    (getCachedBlockMetrics pd env d).writes.length ≤ 1 ∧
    ((getCachedBlockMetrics pd env d).writes ≠ [] ↔
      ((getCachedBlockMetrics pd env d).locatorInvoked = true ∧
        (getCachedBlockMetrics pd env d).result ≠ none)) ∧
    ((getCachedBlockMetrics pd env d).locatorInvoked = true ↔
      ¬∃ s, readBlockCache pd env.cacheFile = some s ∧ env.now ≤ s + d * 3600000) ∧
    (getBlockMetrics pd env = none →
      (getCachedBlockMetrics pd env d).finalCache = env.cacheFile) ∧
    ((getCachedBlockMetrics pd env d).writes = [] →
      (getCachedBlockMetrics pd env d).finalCache = env.cacheFile) := by
  unfold getCachedBlockMetrics
  rcases h : readBlockCache pd env.cacheFile with _ | s
  · rcases g : getBlockMetrics pd env with _ | m <;> simp [g]
  · by_cases hv : env.now ≤ s + d * 3600000
    · simp [hv, h]
    · rcases g : getBlockMetrics pd env with _ | m <;> simp [hv, g, h]

/-- `typeof v === 'number'` holds exactly for a numeric field. -/
theorem isNumericField_iff (v : Option JVal) :
    isNumericField v = true ↔ ∃ n, v = some (.num n) := by
  rcases v with _ | w
  · simp [isNumericField]
  · rcases w <;> simp [isNumericField]

/-- C6: a line contributes a timestamp iff it parses as JSON (`entry`), has
a usage object with numeric input- and output-token fields, is not flagged
as a sidechain entry, and has a string timestamp parsing to a valid date;
invalid lines and unreadable files contribute nothing, and a readable
file's timestamps are exactly its lines' contributions in order. -/
theorem c6_line_contribution (pd : String → Option Int)
    (usage : Option UsageObj) (isSidechain timestamp : Option JVal) (t : Int) :
    (lineTimestamp pd (.entry usage isSidechain timestamp) = some t ↔
      (∃ u, usage = some u ∧ (∃ n, u.input_tokens = some (.num n)) ∧
        (∃ n, u.output_tokens = some (.num n))) ∧
      isSidechain ≠ some (.bool true) ∧
      (∃ s, timestamp = some (.str s) ∧ pd s = some t)) ∧
    lineTimestamp pd .invalid = none ∧
    getAllTimestampsFromFile pd .unreadable = [] ∧
    (∀ ls, getAllTimestampsFromFile pd (.lines ls) = ls.filterMap (lineTimestamp pd)) := by
  refine ⟨?_, rfl, rfl, fun ls => rfl⟩
  rcases usage with _ | u
  · simp [lineTimestamp]
  · constructor
    · intro h
      simp only [lineTimestamp] at h
      cases hin : isNumericField u.input_tokens <;> rw [hin] at h
      · simp at h
      · cases hout : isNumericField u.output_tokens <;> rw [hout] at h
        · simp at h
        · by_cases hside : isSidechain = some (.bool true)
          · simp [hside] at h
          · simp only [hside] at h
            rcases timestamp with _ | tv
            · simp at h
            · rcases tv with s | n | b | _ | _ <;> simp at h
              refine ⟨⟨u, rfl, (isNumericField_iff _).mp hin, (isNumericField_iff _).mp hout⟩,
                hside, s, rfl, h⟩
    · rintro ⟨⟨u', hu', ⟨n1, hn1⟩, ⟨n2, hn2⟩⟩, hside, s, hts, hpd⟩
      cases hu'
      subst hts
      simp [lineTimestamp, hn1, hn2, isNumericField, hside, hpd]

/-- Witness for C6: the valid record `wLineA` contributes its timestamp,
via the characterization. -/
theorem c6_line_contribution_witness :
    lineTimestamp wPd (.entry (some ⟨some (.num 1), some (.num 2)⟩) none (some (.str "a")))
      = some 352800000 :=
  ((c6_line_contribution wPd (some ⟨some (.num 1), some (.num 2)⟩) none (some (.str "a"))
      352800000).1).mpr
    ⟨⟨⟨some (.num 1), some (.num 2)⟩, rfl, ⟨1, rfl⟩, ⟨2, rfl⟩⟩, by decide, "a", rfl, by decide⟩

/-- Witness for C8 at the counterexample environment: one write, performed
on the miss path. -/
theorem c8_write_discipline_witness :
    (getCachedBlockMetrics wPd wEnvA 1).writes.length ≤ 1 ∧
    (getCachedBlockMetrics wPd wEnvA 1).writes ≠ [] :=
  ⟨(c8_write_discipline wPd wEnvA 1).1,
    (c8_write_discipline wPd wEnvA 1).2.1.mpr ⟨rfl, by decide⟩⟩

/-- Flooring to the hour never moves forward. -/
theorem floorToHour_le (t : Int) : floorToHour t ≤ t := by unfold floorToHour; omega

/-- Flooring to the hour moves back by less than one hour. -/
theorem lt_floorToHour_add (t : Int) : t < floorToHour t + 3600000 := by
  unfold floorToHour; omega

/-- Every block the builder emits is anchored at the floored hour of one of
the walked timestamps at or after `continuousWorkStart`, and spans exactly
the session duration. -/
theorem buildBlocksGo_trigger (sessionDurationMs cws : Int) :
    ∀ (ts : List Int) (cur : Option Block) (b : Block),
      b ∈ buildBlocksGo sessionDurationMs cws cur ts →
      ∃ t ∈ ts, cws ≤ t ∧ b.start = floorToHour t ∧
        b.endTime = floorToHour t + sessionDurationMs := by
  intro ts
  induction ts with
  | nil => intro cur b hb; simp [buildBlocksGo] at hb
  | cons t rest ih =>
    intro cur b hb
    rcases cur with _ | curb <;> simp only [buildBlocksGo] at hb
    · by_cases hskip : t < cws
      · rw [if_pos hskip] at hb
        obtain ⟨t', ht', h⟩ := ih _ b hb
        exact ⟨t', List.mem_cons_of_mem _ ht', h⟩
      · rw [if_neg hskip] at hb
        rcases List.mem_cons.mp hb with h | h
        · subst h
          exact ⟨t, List.mem_cons_self t rest, le_of_not_lt hskip, rfl, rfl⟩
        · obtain ⟨t', ht', h'⟩ := ih _ b h
          exact ⟨t', List.mem_cons_of_mem _ ht', h'⟩
    · by_cases hskip : t < cws
      · rw [if_pos hskip] at hb
        obtain ⟨t', ht', h⟩ := ih _ b hb
        exact ⟨t', List.mem_cons_of_mem _ ht', h⟩
      · rw [if_neg hskip] at hb
        by_cases hgt : curb.endTime < t
        · rw [if_pos hgt] at hb
          rcases List.mem_cons.mp hb with h | h
          · subst h
            exact ⟨t, List.mem_cons_self t rest, le_of_not_lt hskip, rfl, rfl⟩
          · obtain ⟨t', ht', h'⟩ := ih _ b h
            exact ⟨t', List.mem_cons_of_mem _ ht', h'⟩
        · rw [if_neg hgt] at hb
          obtain ⟨t', ht', h'⟩ := ih _ b hb
          exact ⟨t', List.mem_cons_of_mem _ ht', h'⟩

/-- If every block contains some observed timestamp and some block contains
`now`, the selection loop succeeds. -/
theorem pickBlock_some_of_contains (now mr : Int) (ts : List Int) :
    ∀ blocks : List Block,
      (∀ b ∈ blocks, ∃ t ∈ ts, b.start ≤ t ∧ t ≤ b.endTime) →
      (∃ b ∈ blocks, b.start ≤ now ∧ now ≤ b.endTime) →
      ∃ m, pickBlock now ts mr blocks = some m := by
  intro blocks
  induction blocks with
  | nil => rintro _ ⟨b, hb, _⟩; simp at hb
  | cons b rest ih =>
    rintro hall ⟨b', hb', hc⟩
    simp only [pickBlock]
    by_cases hcb : b.start ≤ now ∧ now ≤ b.endTime
    · rw [if_pos hcb]
      obtain ⟨t, ht, h1, h2⟩ := hall b (List.mem_cons_self b rest)
      have hany : ts.any (fun t => decide (b.start ≤ t) && decide (t ≤ b.endTime)) = true :=
        List.any_eq_true.mpr ⟨t, ht, by simp [h1, h2]⟩
      rw [if_pos hany]
      exact ⟨_, rfl⟩
    · rw [if_neg hcb]
      refine ih (fun c hc' => hall c (List.mem_cons_of_mem _ hc')) ?_
      rcases List.mem_cons.mp hb' with rfl | h
      · exact absurd hc hcb
      · exact ⟨b', h, hc⟩

/-- A successful selection returns the start of one of the built blocks and
the fixed most-recent timestamp. -/
theorem pickBlock_eq_some (now mr : Int) (ts : List Int) :
    ∀ (blocks : List Block) (m : BlockMetrics),
      pickBlock now ts mr blocks = some m →
      ∃ b ∈ blocks, m.startTime = b.start ∧ m.lastActivity = mr := by
  intro blocks
  induction blocks with
  | nil => intro m h; simp [pickBlock] at h
  | cons b rest ih =>
    intro m h
    simp only [pickBlock] at h
    by_cases hcb : b.start ≤ now ∧ now ≤ b.endTime
    · rw [if_pos hcb] at h
      by_cases hany : ts.any (fun t => decide (b.start ≤ t) && decide (t ≤ b.endTime)) = true
      · rw [if_pos hany] at h
        cases h
        exact ⟨b, List.mem_cons_self b rest, rfl, rfl⟩
      · rw [if_neg hany] at h
        obtain ⟨b', hb', h'⟩ := ih m h
        exact ⟨b', List.mem_cons_of_mem _ hb', h'⟩
    · rw [if_neg hcb] at h
      obtain ⟨b', hb', h'⟩ := ih m h
      exact ⟨b', List.mem_cons_of_mem _ hb', h'⟩

/-- C4: on a file list sorted by modification time descending, the
break-on-first-too-old walk collects timestamps from exactly the files
whose modification time is at or after the cutoff — the short-circuiting
loop equals filtering by the cutoff predicate. -/
theorem c4_break_is_filter (pd : String → Option Int) (cutoff : Int) :
    ∀ files : List FileEntry,
      files.Pairwise (fun a b => b.mtime ≤ a.mtime) →
      collectTimestamps pd cutoff files =
        (files.filter (fun f => decide (cutoff ≤ f.mtime))).flatMap
          (fun f => getAllTimestampsFromFile pd f.content) := by
  intro files
  induction files with
  | nil => intro _; rfl
  | cons f rest ih =>
    intro hp
    rcases List.pairwise_cons.mp hp with ⟨hf, hrest⟩
    simp only [collectTimestamps]
    by_cases h : f.mtime < cutoff
    · rw [if_pos h]
      have hnil : (f :: rest).filter (fun f => decide (cutoff ≤ f.mtime)) = [] := by
        rw [List.filter_eq_nil_iff]
        intro a ha
        rcases List.mem_cons.mp ha with rfl | ha'
        · simp; omega
        · have := hf a ha'
          simp
          omega
      rw [hnil]
      rfl
    · rw [if_neg h]
      rw [List.filter_cons_of_pos (by simp; omega)]
      rw [List.flatMap_cons, ih hrest]

/-- Witness for C4: a two-file sorted list where only the fresh file passes
the cutoff. -/
theorem c4_break_is_filter_witness :
    collectTimestamps wPd 1 [⟨360000000, .lines [wLineA]⟩, ⟨0, .unreadable⟩] =
      (([⟨360000000, .lines [wLineA]⟩, ⟨0, .unreadable⟩] : List FileEntry).filter
          (fun f => decide ((1 : Int) ≤ f.mtime))).flatMap
        (fun f => getAllTimestampsFromFile wPd f.content) :=
  c4_break_is_filter wPd 1 [⟨360000000, .lines [wLineA]⟩, ⟨0, .unreadable⟩] (by decide)

/-- If the first non-empty horizon's most recent timestamp is already
stale, the horizon loop returns the early `null` without expanding
further. -/
theorem scanChunks_stale (pd : String → Option Int) (now sessionDurationMs : Int)
    (files : List FileEntry) (mr : Int) (hstale : sessionDurationMs < now - mr) :
    ∀ (chunks : List Int) (st : ScanState), st.mostRecent = none →
      firstFound pd now files chunks = some mr →
      scanChunks pd now sessionDurationMs files chunks st = none := by
  intro chunks
  induction chunks with
  | nil =>
    intro st _ hf
    simp only [firstFound] at hf
    cases hf
  | cons h rest ih =>
    intro st hmr hf
    simp only [firstFound] at hf
    rw [scanChunks.eq_2]
    cases e : sortTsDesc (collectTimestamps pd (now - h * 3600000) files) with
    | nil =>
      rw [e] at hf
      exact ih _ (by simp [hmr]) hf
    | cons t0 ttail =>
      rw [e] at hf
      rw [hmr]
      cases hf
      simp [hstale]

/-- C3: when the most recent timestamp the Locator finds (head of the first
non-empty horizon's descending sort) is more than the session duration
before `now`, the horizon loop returns its early `null` — no larger horizon
is tried — and the Locator reports no window. -/
theorem c3_stale_no_window (pd : String → Option Int) (now d mr : Int)
    (files : List FileEntry)
    (hf : firstFound pd now (sortFilesByMtimeDesc files) lookbackChunks = some mr)
    (hstale : d * 3600000 < now - mr) :
    scanChunks pd now (d * 3600000) (sortFilesByMtimeDesc files) lookbackChunks
      ⟨[], none, none⟩ = none ∧
    findMostRecentBlockStartTime pd now files d = none := by
  have hscan := scanChunks_stale pd now (d * 3600000) (sortFilesByMtimeDesc files) mr hstale
    lookbackChunks ⟨[], none, none⟩ rfl hf
  refine ⟨hscan, ?_⟩
  unfold findMostRecentBlockStartTime
  by_cases he : files.isEmpty
  · simp [he]
  · simp [he, hscan]

/-- A valid log record whose timestamp string is "b" (6 h before the
witnesses' `now`). -/
def wLineB : LogLine := .entry (some ⟨some (.num 1), some (.num 2)⟩) none (some (.str "b"))

/-- One recently-modified log file whose only timestamp is stale. -/
def wFilesB : List FileEntry := [⟨360000000, .lines [wLineB]⟩]

/-- Witness for C3: a single log file whose only timestamp is 6 h old under
a 5-hour duration yields no window. -/
theorem c3_stale_no_window_witness :
    scanChunks wPd 360000000 (5 * 3600000) (sortFilesByMtimeDesc wFilesB) lookbackChunks
      ⟨[], none, none⟩ = none ∧
    findMostRecentBlockStartTime wPd 360000000 wFilesB 5 = none :=
  c3_stale_no_window wPd 360000000 5 338400000 wFilesB (by decide) (by decide)

/-- C5: with a window duration of at least one hour, every block built in
step 5 contains at least one gathered timestamp (its own trigger), so the
step-6 double-check cannot fail: if some built block contains `now`, the
Locator returns a window instead of falling through to `null`. -/
theorem c5_selected_window_has_activity (pd : String → Option Int) (now d : Int)
    (files : List FileEntry) (st : ScanState) (mr cws : Int)
    (hd : 1 ≤ d) (hne : files.isEmpty = false)
    (hscan : scanChunks pd now (d * 3600000) (sortFilesByMtimeDesc files) lookbackChunks
      ⟨[], none, none⟩ = some st)
    (hmr : st.mostRecent = some mr)
    (hcws : st.continuousWorkStart = some cws) :
    (∀ b ∈ buildBlocks (d * 3600000) cws (sortTsAsc st.timestamps),
      ∃ t ∈ st.timestamps, b.start ≤ t ∧ t ≤ b.endTime) ∧
    ((∃ b ∈ buildBlocks (d * 3600000) cws (sortTsAsc st.timestamps),
        b.start ≤ now ∧ now ≤ b.endTime) →
      ∃ m, findMostRecentBlockStartTime pd now files d = some m) := by
  have hprop : ∀ b ∈ buildBlocks (d * 3600000) cws (sortTsAsc st.timestamps),
      ∃ t ∈ st.timestamps, b.start ≤ t ∧ t ≤ b.endTime := by
    intro b hb
    obtain ⟨t, ht, hcwt, hs, hend⟩ := buildBlocksGo_trigger (d * 3600000) cws _ none b hb
    refine ⟨t, (List.mem_insertionSort _).mp ht, ?_, ?_⟩
    · rw [hs]; exact floorToHour_le t
    · rw [hend]
      have h1 := lt_floorToHour_add t
      omega
  refine ⟨hprop, fun hex => ?_⟩
  unfold findMostRecentBlockStartTime
  rw [hne]
  simp only [Bool.false_eq_true, if_false, hscan, hmr, hcws]
  exact pickBlock_some_of_contains now mr st.timestamps _ hprop hex

/-- Witness for C5 on the one-file environment: the built block
`[98 h, 103 h]` contains `now = 100 h`, and the Locator indeed returns a
window. -/
theorem c5_selected_window_has_activity_witness :
    ∃ m, findMostRecentBlockStartTime wPd 360000000 wFilesA 5 = some m :=
  (c5_selected_window_has_activity wPd 360000000 5 wFilesA
      ⟨[352800000], some 352800000, some 352800000⟩ 352800000 352800000
      (by decide) (by decide) (by decide) rfl rfl).2
    ⟨⟨352800000, 370800000⟩, by decide, by decide⟩

/-- C7: every window the Locator returns has a start time floored to the
top of the hour in UTC (its UTC minutes, seconds and milliseconds are
zero), and that start is at most one hour before some timestamp gathered by
the scan. -/
theorem c7_start_is_floored (pd : String → Option Int) (now d : Int)
    (files : List FileEntry) (m : BlockMetrics)
    (h : findMostRecentBlockStartTime pd now files d = some m) :
    m.startTime % 3600000 = 0 ∧
    (isoFromMs m.startTime).minute = 0 ∧
    (isoFromMs m.startTime).second = 0 ∧
    (isoFromMs m.startTime).ms = 0 ∧
    ∃ st, scanChunks pd now (d * 3600000) (sortFilesByMtimeDesc files) lookbackChunks
        ⟨[], none, none⟩ = some st ∧
      ∃ t ∈ st.timestamps, m.startTime ≤ t ∧ t - m.startTime < 3600000 := by
  simp only [findMostRecentBlockStartTime] at h
  split at h
  · cases h
  · split at h
    · cases h
    · split at h
      · rename_i st hsc _x1 _x2 mr cws hmr hcws
        obtain ⟨b, hb, hms, hml⟩ := pickBlock_eq_some now mr st.timestamps _ m h
        obtain ⟨t, ht, hcwt, hs, hend⟩ :=
          buildBlocksGo_trigger (d * 3600000) cws _ none b hb
        have h0 : m.startTime % 3600000 = 0 := by
          rw [hms, hs]; unfold floorToHour; omega
        refine ⟨h0, ?_, ?_, ?_, st, hsc, t, (List.mem_insertionSort _).mp ht, ?_, ?_⟩
        · show (isoFromMs m.startTime).minute = 0
          simp only [isoFromMs]
          omega
        · show (isoFromMs m.startTime).second = 0
          simp only [isoFromMs]
          omega
        · show (isoFromMs m.startTime).ms = 0
          simp only [isoFromMs]
          omega
        · rw [hms, hs]; exact floorToHour_le t
        · rw [hms, hs]; unfold floorToHour; omega
      · cases h

/-- Witness for C7: the window found on the one-file environment starts at
98 h exactly, one floored hour at or before its trigger timestamp. -/
theorem c7_start_is_floored_witness :
    (352800000 : Int) % 3600000 = 0 ∧
    (isoFromMs 352800000).minute = 0 ∧
    (isoFromMs 352800000).second = 0 ∧
    (isoFromMs 352800000).ms = 0 ∧
    ∃ st, scanChunks wPd 360000000 (5 * 3600000) (sortFilesByMtimeDesc wFilesA)
        lookbackChunks ⟨[], none, none⟩ = some st ∧
      ∃ t ∈ st.timestamps, (352800000 : Int) ≤ t ∧ t - 352800000 < 3600000 :=
  c7_start_is_floored wPd 360000000 5 wFilesA ⟨352800000, 352800000⟩ (by decide)
